import Mathlib

/-!
Verification development for the streaming transcription core of the
conversationIQ transcript generator (class LiveTranscriber in
transcripts_pipeline/pipeline/transcriptiongenerator.py).

The embedding models:
- Python str.strip on the recognizer text (pyStrip);
- one loop iteration of LiveTranscriber.transcribe_stream as a list of
  observable actions (sink callback invocation, feeding the recognizer,
  emitting an event), driven by an oracle describing what the external
  Vosk recognizer does on each frame (RecogResponse);
- the lifecycle methods load_model, setup_audio_stream, start_recognition
  and cleanup as explicit state transformers on TranscriberState, with an
  Option PyError component standing for a raised Python exception;
- LiveTranscriber.run as a trace that appends the teardown actions
  performed by its try/finally block.

Timestamps and the raw_result payload of emitted events are wall-clock and
recognizer-internal data with no bearing on the verified claims; events are
modelled by their kind and text fields.
-/

/-- Python str.strip removes leading and trailing whitespace. These are the
ASCII whitespace characters Python strips (unicode whitespace is irrelevant
to the claims). -/
def pyIsSpace (c : Char) : Bool :=
  c = ' ' || c = '\t' || c = '\n' || c = '\r' || c = '\x0b' || c = '\x0c'

/-- Strip leading and trailing whitespace characters. -/
def stripChars (l : List Char) : List Char :=
  List.rdropWhile pyIsSpace (l.dropWhile pyIsSpace)

/-- Model of Python str.strip (with no argument). -/
def pyStrip (s : String) : String :=
  ⟨stripChars s.data⟩

/-- Kind of a transcription event: the type field of the yielded dict. -/
inductive EventKind where
  | partialK
  | finalK
deriving DecidableEq, Repr

/-- A transcription event as yielded by transcribe_stream, restricted to the
fields the claims speak about: kind (type) and text. -/
structure Event where
  kind : EventKind
  text : String
deriving DecidableEq, Repr

/-- Outcome of one call into the Vosk recognizer: either a returned value or
a raised exception (err). -/
inductive VoskResult (α : Type) where
  | ok (a : α)
  | err
deriving DecidableEq, Repr

/-- Oracle describing the external recognizer while one frame is processed:
what AcceptWaveform(data) does, and the text field of Result() resp. the
partial field of PartialResult() should they be consulted. A json parse
failure counts as err of the corresponding fetch. -/
structure RecogResponse where
  accept : VoskResult Bool
  finalText : VoskResult String
  partialText : VoskResult String
deriving DecidableEq, Repr

/-- One captured audio frame together with the recognizer oracle for it. -/
structure FrameInput where
  data : List Nat
  resp : RecogResponse
deriving DecidableEq, Repr

/-- The optional audio_callback: receives the raw frame bytes and either
returns or raises. -/
def Sink : Type := List Nat → VoskResult Unit

/-- Python exceptions distinguished by the lifecycle code. -/
inductive PyError where
  | fileNotFound
  | modelLoad
  | deviceOpen
  | notInitialized
  | streamRead
deriving DecidableEq, Repr

/-- Observable actions of a streaming run. -/
inductive RunAction where
  | sinkCall (i : Nat)
  | sinkFailed (i : Nat)
  | feed (i : Nat)
  | recogFailed (i : Nat)
  | emit (i : Nat) (e : Event)
  | cleanupCall
  | surface (e : Option PyError)
deriving DecidableEq, Repr

/-- Which frame an action belongs to, if any. -/
def frameIdx : RunAction → Option Nat
  | .sinkCall i => some i
  | .sinkFailed i => some i
  | .feed i => some i
  | .recogFailed i => some i
  | .emit i _ => some i
  | .cleanupCall => none
  | .surface _ => none

/-- The recognizer interaction of one loop iteration of transcribe_stream
(the inner try of the loop body): AcceptWaveform is called; on True the
final result is fetched and a final event with non-empty stripped text is
yielded, on False likewise for the partial result; any exception in this
block is caught, logged, and the loop continues. -/
def recogActions (i : Nat) (r : RecogResponse) : List RunAction :=
  match r.accept with
  | .err => [.feed i, .recogFailed i]
  | .ok true =>
    match r.finalText with
    | .err => [.feed i, .recogFailed i]
    | .ok t =>
      if pyStrip t = "" then [.feed i]
      else [.feed i, .emit i ⟨.finalK, pyStrip t⟩]
  | .ok false =>
    match r.partialText with
    | .err => [.feed i, .recogFailed i]
    | .ok t =>
      if pyStrip t = "" then [.feed i]
      else [.feed i, .emit i ⟨.partialK, pyStrip t⟩]

/-- One full loop iteration of transcribe_stream on frame i: after the
blocking read, the optional audio_callback is invoked on the raw data with
its exceptions caught and logged, then the frame is fed to the recognizer. -/
def frameTrace (sink : Option Sink) (i : Nat) (f : FrameInput) : List RunAction :=
  (match sink with
   | none => []
   | some cb =>
     match cb f.data with
     | .ok _ => [.sinkCall i]
     | .err => [.sinkCall i, .sinkFailed i])
  ++ recogActions i f.resp

/-- The streaming loop over the frames read from the device, numbering them
from j. -/
def streamTraceFrom (sink : Option Sink) : Nat → List FrameInput → List RunAction
  | _, [] => []
  | j, f :: fs => frameTrace sink j f ++ streamTraceFrom sink (j + 1) fs

/-- The streaming loop over the frames read from the device. -/
def streamTrace (sink : Option Sink) (frames : List FrameInput) : List RunAction :=
  streamTraceFrom sink 0 frames

/-- Environment behaviour during the setup phase of run: whether the config
supplies a usable model path, whether Model(model_path) constructs, and
whether self.p.open succeeds. -/
structure SetupBehavior where
  pathOk : Bool
  modelOk : Bool
  openOk : Bool
deriving DecidableEq, Repr

/-- How the streaming loop of transcribe_stream ends: a KeyboardInterrupt
(caught, the generator returns normally), a raised read error on
self.stream.read (logged and re-raised), or the caller abandoning iteration
of the generator (GeneratorExit). The frames list of runTrace holds exactly
the frames processed before this ending occurs. -/
inductive StreamEnd where
  | interrupted
  | readError
  | abandoned
deriving DecidableEq, Repr

/-- The exception, if any, that escapes transcribe_stream and therefore
run for a given ending. -/
def endErr : StreamEnd → Option PyError
  | .interrupted => none
  | .abandoned => none
  | .readError => some .streamRead

/-- LiveTranscriber.run as a trace: load_model, setup_audio_stream and
start_recognition run inside the try block, so a setup failure reaches the
finally block, which calls cleanup, and the exception then propagates to
the caller; otherwise the streaming loop runs, and however it ends the
finally block calls cleanup before the termination (normal return or
re-raised exception) is surfaced. start_recognition cannot fail here
because load_model has already installed the model. -/
def runTrace (b : SetupBehavior) (sink : Option Sink) (frames : List FrameInput)
    (ending : StreamEnd) : List RunAction :=
  if !b.pathOk then [.cleanupCall, .surface (some .fileNotFound)]
  else if !b.modelOk then [.cleanupCall, .surface (some .modelLoad)]
  else if !b.openOk then [.cleanupCall, .surface (some .deviceOpen)]
  else streamTrace sink frames ++ [.cleanupCall, .surface (endErr ending)]

/-- The mutable resource fields of a LiveTranscriber: self.model,
self.recognizer, self.stream and self.p, each either absent (None) or a
held handle. -/
structure TranscriberState where
  model : Option Unit
  recognizer : Option Unit
  stream : Option Unit
  p : Option Unit
deriving DecidableEq, Repr

/-- State after LiveTranscriber.__init__: all four fields are None. -/
def initState : TranscriberState :=
  ⟨none, none, none, none⟩

/-- LiveTranscriber.load_model: raises FileNotFoundError when the config
carries no usable model path, propagates a failure of Model(model_path),
and otherwise installs the model. -/
def load_model (pathOk modelOk : Bool) (s : TranscriberState) :
    TranscriberState × Option PyError :=
  if !pathOk then (s, some .fileNotFound)
  else if !modelOk then (s, some .modelLoad)
  else ({ s with model := some () }, none)

/-- LiveTranscriber.setup_audio_stream: self.p is assigned a fresh PyAudio
instance unconditionally, then self.p.open is called; if open raises, the
exception propagates while self.p stays assigned and self.stream stays
None. The method consults no other field of the session state. -/
def setup_audio_stream (openOk : Bool) (s : TranscriberState) :
    TranscriberState × Option PyError :=
  let s1 := { s with p := some () }
  if openOk then ({ s1 with stream := some () }, none)
  else (s1, some .deviceOpen)

/-- LiveTranscriber.start_recognition: raises RuntimeError when the model
is not loaded, otherwise constructs the KaldiRecognizer. The word-timing
configuration is applied best-effort inside nested try blocks whose
failures are swallowed, so it neither changes the resource fields nor
raises. -/
def start_recognition (s : TranscriberState) : TranscriberState × Option PyError :=
  if s.model = none then (s, some .notInitialized)
  else ({ s with recognizer := some () }, none)

/-- Whether each underlying release call raises when cleanup performs it. -/
structure CleanupFailures where
  stopFails : Bool
  closeFails : Bool
  terminateFails : Bool
deriving DecidableEq, Repr

/-- A release call performed by cleanup, recording whether the underlying
call succeeded (its exception, if any, is swallowed by the enclosing
try/except pass). -/
inductive ReleaseStep where
  | stopStream (ok : Bool)
  | closeStream (ok : Bool)
  | terminateAudio (ok : Bool)
deriving DecidableEq, Repr

/-- LiveTranscriber.cleanup: when self.stream is set, stop_stream and close
are each attempted inside their own try/except pass and self.stream is set
to None; then, when self.p is set, terminate is attempted inside its own
try/except pass and self.p is set to None. Every release call is
individually guarded and the field assignments cannot raise, so the outer
try/except of cleanup never fires and the method returns normally (third
component none). self.model and self.recognizer are not touched. -/
def cleanup (f : CleanupFailures) (s : TranscriberState) :
    TranscriberState × List ReleaseStep × Option PyError :=
  let (s1, a1) :=
    if s.stream.isSome then
      ({ s with stream := none },
       [ReleaseStep.stopStream (!f.stopFails), ReleaseStep.closeStream (!f.closeFails)])
    else (s, [])
  let (s2, a2) :=
    if s1.p.isSome then
      ({ s1 with p := none }, [ReleaseStep.terminateAudio (!f.terminateFails)])
    else (s1, [])
  (s2, a1 ++ a2, none)

/-- Sample recognizer oracle: utterance complete with final text needing a
strip. -/
def sampleFinalResp : RecogResponse :=
  ⟨.ok true, .ok " hello world ", .ok "hel"⟩

/-- Sample recognizer oracle: no utterance boundary, partial text present. -/
def samplePartialResp : RecogResponse :=
  ⟨.ok false, .ok "unused", .ok " hel "⟩

/-- Sample recognizer oracle: AcceptWaveform raises. -/
def sampleErrResp : RecogResponse :=
  ⟨.err, .ok "unused", .ok "unused"⟩

/-- Sample frame carrying the final-result oracle. -/
def sampleFinalFrame : FrameInput :=
  ⟨[1, 2], sampleFinalResp⟩

/-- Sample frame carrying the partial-result oracle. -/
def samplePartialFrame : FrameInput :=
  ⟨[3], samplePartialResp⟩

/-- Sample frame on which the recognizer raises. -/
def sampleErrFrame : FrameInput :=
  ⟨[4], sampleErrResp⟩

/-- A sink callback that raises on every invocation. -/
def raisingSink : Sink :=
  fun _ => .err

/-- Session state with all four resources held (model loaded, recognizer
created, stream open, PyAudio instantiated). -/
def fullState : TranscriberState :=
  ⟨some (), some (), some (), some ()⟩

/-- Cleanup environment in which no underlying release call raises. -/
def noFail : CleanupFailures :=
  ⟨false, false, false⟩

/-- Whether an action is the emission of an event for frame i. -/
def isEmitOf (i : Nat) : RunAction → Bool
  | .emit j _ => j == i
  | _ => false

/-- Whether an action is not a sink-callback action. -/
def nonSink : RunAction → Bool
  | .sinkCall _ => false
  | .sinkFailed _ => false
  | _ => true

/-- The head of a list untouched by dropWhile stays untouched after
rdropWhile: stripping the right end of an already left-stripped list leaves
it left-stripped. -/
theorem dropWhile_rdropWhile (A : List Char)
    (h : List.dropWhile pyIsSpace A = A) :
    List.dropWhile pyIsSpace (List.rdropWhile pyIsSpace A) =
      List.rdropWhile pyIsSpace A := by
  rw [List.dropWhile_eq_self_iff]
  intro hl
  obtain ⟨t, ht⟩ := List.rdropWhile_prefix pyIsSpace A
  have hx : A[0]? = some ((List.rdropWhile pyIsSpace A).get ⟨0, hl⟩) := by
    conv_lhs => rw [← ht]
    rw [List.getElem?_append_left hl, List.getElem?_eq_getElem hl,
      List.get_eq_getElem]
  have hnot := List.head?_dropWhile_not pyIsSpace A
  rw [h, List.head?_eq_getElem?, hx] at hnot
  have hnot2 : pyIsSpace ((List.rdropWhile pyIsSpace A).get ⟨0, hl⟩) = false := hnot
  simp only [List.get_eq_getElem] at hnot2
  simp [hnot2]

/-- Stripping is idempotent on character lists. -/
theorem stripChars_idem (l : List Char) :
    stripChars (stripChars l) = stripChars l := by
  unfold stripChars
  rw [dropWhile_rdropWhile _ (List.dropWhile_idempotent _ _),
    List.rdropWhile_idempotent]

/-- pyStrip is idempotent, as Python str.strip is. -/
theorem pyStrip_idem (s : String) : pyStrip (pyStrip s) = pyStrip s := by
  show String.mk (stripChars (stripChars s.data)) = String.mk (stripChars s.data)
  rw [stripChars_idem]

/-- Every action of the recognizer interaction on frame i belongs to frame
i. -/
theorem recogActions_idx (i : Nat) (r : RecogResponse) :
    ∀ a ∈ recogActions i r, frameIdx a = some i := by
  intro a ha
  rcases r with ⟨acc, ft, pt⟩
  cases acc with
  | err =>
    simp [recogActions] at ha
    rcases ha with rfl | rfl <;> rfl
  | ok b =>
    cases b with
    | false =>
      cases pt with
      | ok t =>
        by_cases hh : pyStrip t = "" <;> simp [recogActions, hh] at ha
        · subst ha; rfl
        · rcases ha with rfl | rfl <;> rfl
      | err =>
        simp [recogActions] at ha
        rcases ha with rfl | rfl <;> rfl
    | true =>
      cases ft with
      | ok t =>
        by_cases hh : pyStrip t = "" <;> simp [recogActions, hh] at ha
        · subst ha; rfl
        · rcases ha with rfl | rfl <;> rfl
      | err =>
        simp [recogActions] at ha
        rcases ha with rfl | rfl <;> rfl

/-- The recognizer is always fed on every frame processed (AcceptWaveform
is the first call of the inner try block). -/
theorem feed_mem_recogActions (i : Nat) (r : RecogResponse) :
    RunAction.feed i ∈ recogActions i r := by
  rcases r with ⟨acc, ft, pt⟩
  cases acc with
  | err => simp [recogActions]
  | ok b =>
    cases b with
    | false =>
      cases pt with
      | ok t => by_cases hh : pyStrip t = "" <;> simp [recogActions, hh]
      | err => simp [recogActions]
    | true =>
      cases ft with
      | ok t => by_cases hh : pyStrip t = "" <;> simp [recogActions, hh]
      | err => simp [recogActions]

/-- Characterization of event emission during the recognizer interaction:
an event is emitted exactly when the consulted result has non-empty
stripped text, the event kind matches the AcceptWaveform verdict, and the
text is the stripped result text. -/
theorem emit_mem_recogActions (i j : Nat) (r : RecogResponse) (e : Event)
    (ha : RunAction.emit j e ∈ recogActions i r) :
    j = i ∧
      ((r.accept = .ok true ∧ ∃ t, r.finalText = .ok t ∧ pyStrip t ≠ "" ∧
          e = ⟨.finalK, pyStrip t⟩) ∨
       (r.accept = .ok false ∧ ∃ t, r.partialText = .ok t ∧ pyStrip t ≠ "" ∧
          e = ⟨.partialK, pyStrip t⟩)) := by
  rcases r with ⟨acc, ft, pt⟩
  cases acc with
  | err => simp [recogActions] at ha
  | ok b =>
    cases b with
    | false =>
      cases pt with
      | ok t =>
        by_cases hh : pyStrip t = "" <;> simp [recogActions, hh] at ha
        obtain ⟨rfl, rfl⟩ := ha
        exact ⟨rfl, Or.inr ⟨rfl, t, rfl, hh, rfl⟩⟩
      | err => simp [recogActions] at ha
    | true =>
      cases ft with
      | ok t =>
        by_cases hh : pyStrip t = "" <;> simp [recogActions, hh] at ha
        obtain ⟨rfl, rfl⟩ := ha
        exact ⟨rfl, Or.inl ⟨rfl, t, rfl, hh, rfl⟩⟩
      | err => simp [recogActions] at ha

/-- At most one event is emitted by the recognizer interaction of one
frame. -/
theorem recogActions_emit_count (i k : Nat) (r : RecogResponse) :
    (recogActions i r).countP (isEmitOf k) ≤ 1 := by
  rcases r with ⟨acc, ft, pt⟩
  cases acc with
  | err => simp [recogActions, List.countP_cons, isEmitOf]
  | ok b =>
    cases b with
    | false =>
      cases pt with
      | ok t =>
        by_cases hh : pyStrip t = "" <;>
          simp [recogActions, hh, List.countP_cons, isEmitOf] <;>
          split <;> simp
      | err => simp [recogActions, List.countP_cons, isEmitOf]
    | true =>
      cases ft with
      | ok t =>
        by_cases hh : pyStrip t = "" <;>
          simp [recogActions, hh, List.countP_cons, isEmitOf] <;>
          split <;> simp
      | err => simp [recogActions, List.countP_cons, isEmitOf]

/-- An action counted by isEmitOf i belongs to frame i. -/
theorem isEmitOf_frameIdx (i : Nat) (a : RunAction) (h : isEmitOf i a = true) :
    frameIdx a = some i := by
  cases a <;> simp [isEmitOf] at h <;> simp [frameIdx, h]

/-- Every action of one loop iteration on frame i belongs to frame i. -/
theorem frameTrace_idx (sink : Option Sink) (i : Nat) (f : FrameInput) :
    ∀ a ∈ frameTrace sink i f, frameIdx a = some i := by
  intro a ha
  unfold frameTrace at ha
  rw [List.mem_append] at ha
  rcases ha with ha | ha
  · split at ha
    · simp at ha
    · split at ha
      · simp at ha; subst ha; rfl
      · simp at ha; rcases ha with rfl | rfl <;> rfl
  · exact recogActions_idx i f.resp a ha

/-- Every action of the streaming loop started at frame number j belongs to
some frame numbered in [j, j + number of frames). -/
theorem streamTraceFrom_idx (sink : Option Sink) :
    ∀ (fs : List FrameInput) (j : Nat), ∀ a ∈ streamTraceFrom sink j fs,
      ∃ i, frameIdx a = some i ∧ j ≤ i ∧ i < j + fs.length := by
  intro fs
  induction fs with
  | nil =>
    intro j a ha
    simp [streamTraceFrom] at ha
  | cons f fs ih =>
    intro j a ha
    simp only [streamTraceFrom] at ha
    rw [List.mem_append] at ha
    rcases ha with ha | ha
    · exact ⟨j, frameTrace_idx sink j f a ha, Nat.le_refl j, by simp⟩
    · obtain ⟨i, hidx, hle, hlt⟩ := ih (j + 1) a ha
      exact ⟨i, hidx, by omega, by simp only [List.length_cons]; omega⟩

/-- An action of the streaming loop belonging to frame i comes from the
loop iteration on the i-th processed frame. -/
theorem streamTraceFrom_localize (sink : Option Sink) :
    ∀ (fs : List FrameInput) (j i : Nat) (a : RunAction),
      a ∈ streamTraceFrom sink j fs → frameIdx a = some i →
      ∃ f, fs[i - j]? = some f ∧ a ∈ frameTrace sink i f := by
  intro fs
  induction fs with
  | nil =>
    intro j i a ha _
    simp [streamTraceFrom] at ha
  | cons f fs ih =>
    intro j i a ha hidx
    simp only [streamTraceFrom] at ha
    rw [List.mem_append] at ha
    rcases ha with ha | ha
    · have h2 := frameTrace_idx sink j f a ha
      rw [hidx] at h2
      have hij : i = j := by injection h2
      subst hij
      exact ⟨f, by simp [Nat.sub_self], ha⟩
    · obtain ⟨g, hg, hmem⟩ := ih (j + 1) i a ha hidx
      have hji : j + 1 ≤ i := by
        obtain ⟨i2, hidx2, hle, _⟩ := streamTraceFrom_idx sink fs (j + 1) a ha
        rw [hidx] at hidx2
        have : i = i2 := by injection hidx2
        omega
      refine ⟨g, ?_, hmem⟩
      have hk : i - j = (i - (j + 1)) + 1 := by omega
      rw [hk]
      simpa using hg

/-- Every processed frame is fed to the recognizer. -/
theorem feed_mem_streamTraceFrom (sink : Option Sink) :
    ∀ (fs : List FrameInput) (j k : Nat) (f : FrameInput),
      fs[k]? = some f → RunAction.feed (j + k) ∈ streamTraceFrom sink j fs := by
  intro fs
  induction fs with
  | nil =>
    intro j k f hf
    simp at hf
  | cons g fs ih =>
    intro j k f hf
    simp only [streamTraceFrom]
    rw [List.mem_append]
    cases k with
    | zero =>
      left
      unfold frameTrace
      exact List.mem_append_right _ (feed_mem_recogActions j g.resp)
    | succ k =>
      right
      have : j + (k + 1) = (j + 1) + k := by omega
      rw [this]
      exact ih (j + 1) k f (by simpa using hf)

/-- The per-frame emit count of the streaming loop: at most one event per
frame, each frame counted only in its own iteration. -/
theorem streamTraceFrom_emit_count (sink : Option Sink) :
    ∀ (fs : List FrameInput) (j i : Nat),
      (streamTraceFrom sink j fs).countP (isEmitOf i) ≤ 1 := by
  intro fs
  induction fs with
  | nil =>
    intro j i
    simp [streamTraceFrom]
  | cons f fs ih =>
    intro j i
    simp only [streamTraceFrom]
    rw [List.countP_append]
    by_cases hij : i = j
    · subst hij
      have h2 : (streamTraceFrom sink (i + 1) fs).countP (isEmitOf i) = 0 := by
        rw [List.countP_eq_zero]
        intro a ha hpa
        obtain ⟨i2, hidx2, hle, _⟩ := streamTraceFrom_idx sink fs (i + 1) a ha
        have := isEmitOf_frameIdx i a hpa
        rw [this] at hidx2
        have : i = i2 := by injection hidx2
        omega
      have h1 : (frameTrace sink i f).countP (isEmitOf i) ≤ 1 := by
        unfold frameTrace
        rw [List.countP_append]
        have hz : (match sink with
            | none => ([] : List RunAction)
            | some cb =>
              match cb f.data with
              | .ok _ => [.sinkCall i]
              | .err => [.sinkCall i, .sinkFailed i]).countP (isEmitOf i) = 0 := by
          rw [List.countP_eq_zero]
          intro a ha hpa
          split at ha
          · simp at ha
          · split at ha <;> simp at ha <;>
              first
              | (subst ha; simp [isEmitOf] at hpa)
              | (rcases ha with rfl | rfl <;> simp [isEmitOf] at hpa)
        rw [hz]
        simpa using recogActions_emit_count i i f.resp
      omega
    · have h1 : (frameTrace sink j f).countP (isEmitOf i) = 0 := by
        rw [List.countP_eq_zero]
        intro a ha hpa
        have hidx := frameTrace_idx sink j f a ha
        have := isEmitOf_frameIdx i a hpa
        rw [this] at hidx
        exact hij (by injection hidx)
      rw [h1]
      simpa using ih (j + 1) i

/-- An event emitted during a loop iteration comes from the recognizer
interaction, never from the sink hook. -/
theorem emit_mem_frameTrace (sink : Option Sink) (i j : Nat) (f : FrameInput)
    (e : Event) (h : RunAction.emit j e ∈ frameTrace sink i f) :
    RunAction.emit j e ∈ recogActions i f.resp := by
  unfold frameTrace at h
  rw [List.mem_append] at h
  rcases h with h | h
  · exfalso
    split at h
    · simp at h
    · split at h <;> simp at h
  · exact h

/-- C1: during a streaming run at most one transcription event is emitted
per frame, and every emitted event carries text that is non-empty after
stripping whitespace. -/
theorem transcribe_at_most_one_event_per_frame_and_text_nonempty
    (sink : Option Sink) (frames : List FrameInput) :
    (∀ i, (streamTrace sink frames).countP (isEmitOf i) ≤ 1) ∧
    (∀ i e, RunAction.emit i e ∈ streamTrace sink frames →
      pyStrip e.text ≠ "") := by
  constructor
  · intro i
    exact streamTraceFrom_emit_count sink frames 0 i
  · intro i e he
    obtain ⟨f, hf, hmem⟩ :=
      streamTraceFrom_localize sink frames 0 i (RunAction.emit i e) he rfl
    have hchar :=
      emit_mem_recogActions i i f.resp e (emit_mem_frameTrace sink i i f e hmem)
    rcases hchar with ⟨-, ⟨-, t, -, hne, rfl⟩ | ⟨-, t, -, hne, rfl⟩⟩ <;>
      simpa [pyStrip_idem] using hne

/-- Witness for C1 on a concrete run: one frame whose final text strips to
a non-empty string. -/
theorem transcribe_at_most_one_event_per_frame_and_text_nonempty_witness :
    pyStrip (Event.mk EventKind.finalK "hello world").text ≠ "" :=
  (transcribe_at_most_one_event_per_frame_and_text_nonempty none
      [sampleFinalFrame]).2 0 ⟨EventKind.finalK, "hello world"⟩ (by decide)

/-- C2: an event emitted for a frame is Final with the stripped final
result text when AcceptWaveform returned True for that frame, Partial with
the stripped partial result text when it returned False, and no event
exists for a frame on which AcceptWaveform raised. -/
theorem emitted_event_kind_matches_accept
    (sink : Option Sink) (frames : List FrameInput)
    (i : Nat) (f : FrameInput) (e : Event)
    (hf : frames[i]? = some f)
    (he : RunAction.emit i e ∈ streamTrace sink frames) :
    (f.resp.accept = .ok true →
      e.kind = .finalK ∧ ∃ t, f.resp.finalText = .ok t ∧ e.text = pyStrip t) ∧
    (f.resp.accept = .ok false →
      e.kind = .partialK ∧ ∃ t, f.resp.partialText = .ok t ∧ e.text = pyStrip t) ∧
    f.resp.accept ≠ .err := by
  obtain ⟨g, hg, hmem⟩ :=
    streamTraceFrom_localize sink frames 0 i (RunAction.emit i e) he rfl
  rw [Nat.sub_zero, hf] at hg
  have hfg : f = g := by injection hg
  subst hfg
  have hchar :=
    emit_mem_recogActions i i f.resp e (emit_mem_frameTrace sink i i f e hmem)
  rcases hchar with ⟨-, ⟨hacc, t, hft, -, rfl⟩ | ⟨hacc, t, hft, -, rfl⟩⟩
  · refine ⟨fun _ => ⟨rfl, t, hft, rfl⟩, fun hacc2 => ?_, ?_⟩
    · rw [hacc] at hacc2
      simp at hacc2
    · rw [hacc]
      simp
  · refine ⟨fun hacc2 => ?_, fun _ => ⟨rfl, t, hft, rfl⟩, ?_⟩
    · rw [hacc] at hacc2
      simp at hacc2
    · rw [hacc]
      simp

/-- Witness for C2 on a concrete run: an utterance-complete frame yields a
Final event carrying the stripped final text. -/
theorem emitted_event_kind_matches_accept_witness :
    (Event.mk EventKind.finalK "hello world").kind = EventKind.finalK ∧
      ∃ t, sampleFinalFrame.resp.finalText = VoskResult.ok t ∧
        (Event.mk EventKind.finalK "hello world").text = pyStrip t :=
  (emitted_event_kind_matches_accept none [sampleFinalFrame] 0 sampleFinalFrame
      ⟨EventKind.finalK, "hello world"⟩ (by decide) (by decide)).1 rfl

/-- The streaming loop itself performs no cleanup call and surfaces no
termination: those actions belong to run. -/
theorem cleanup_surface_not_mem_streamTrace (sink : Option Sink)
    (frames : List FrameInput) :
    RunAction.cleanupCall ∉ streamTrace sink frames ∧
    ∀ e, RunAction.surface e ∉ streamTrace sink frames := by
  constructor
  · intro h
    obtain ⟨i, hidx, -, -⟩ := streamTraceFrom_idx sink frames 0 _ h
    simp [frameIdx] at hidx
  · intro e h
    obtain ⟨i, hidx, -, -⟩ := streamTraceFrom_idx sink frames 0 _ h
    simp [frameIdx] at hidx

/-- C3: however the event sequence of run terminates (normal exhaustion,
caller cancellation, or an unhandled error in setup or streaming), exactly
one cleanup call happens, and it happens before the termination is
surfaced to the caller. -/
theorem run_cleanup_before_termination (b : SetupBehavior) (sink : Option Sink)
    (frames : List FrameInput) (ending : StreamEnd) :
    ∃ pre e, runTrace b sink frames ending =
        pre ++ [RunAction.cleanupCall, RunAction.surface e] ∧
      RunAction.cleanupCall ∉ pre ∧ ∀ e2, RunAction.surface e2 ∉ pre := by
  rcases b with ⟨bp, bm, bo⟩
  cases bp with
  | false =>
    exact ⟨[], some .fileNotFound, by simp [runTrace], by simp, fun e2 => by simp⟩
  | true =>
    cases bm with
    | false =>
      exact ⟨[], some .modelLoad, by simp [runTrace], by simp, fun e2 => by simp⟩
    | true =>
      cases bo with
      | false =>
        exact ⟨[], some .deviceOpen, by simp [runTrace], by simp, fun e2 => by simp⟩
      | true =>
        exact ⟨streamTrace sink frames, endErr ending, by simp [runTrace],
          (cleanup_surface_not_mem_streamTrace sink frames).1,
          (cleanup_surface_not_mem_streamTrace sink frames).2⟩

/-- C4: a recognizer interaction error on frame n (AcceptWaveform raising,
or the consulted result fetch raising) is recovered locally: no event is
emitted for frame n, and the next frame is still read and fed to the
recognizer. -/
theorem recognizer_error_skips_frame_and_continues
    (sink : Option Sink) (frames : List FrameInput) (n : Nat) (f : FrameInput)
    (hf : frames[n]? = some f)
    (hr : f.resp.accept = .err ∨
      (f.resp.accept = .ok true ∧ f.resp.finalText = .err) ∨
      (f.resp.accept = .ok false ∧ f.resp.partialText = .err)) :
    (∀ e, RunAction.emit n e ∉ streamTrace sink frames) ∧
    (∀ g, frames[n + 1]? = some g →
      RunAction.feed (n + 1) ∈ streamTrace sink frames) := by
  constructor
  · intro e he
    obtain ⟨g, hg, hmem⟩ :=
      streamTraceFrom_localize sink frames 0 n (RunAction.emit n e) he rfl
    rw [Nat.sub_zero, hf] at hg
    have hfg : f = g := by injection hg
    subst hfg
    have hchar :=
      emit_mem_recogActions n n f.resp e (emit_mem_frameTrace sink n n f e hmem)
    rcases hchar with ⟨-, ⟨hacc, t, hft, -, -⟩ | ⟨hacc, t, hft, -, -⟩⟩
    · rcases hr with hr | ⟨-, hr⟩ | ⟨hr2, -⟩
      · rw [hacc] at hr
        simp at hr
      · rw [hft] at hr
        simp at hr
      · rw [hacc] at hr2
        simp at hr2
    · rcases hr with hr | ⟨hr2, -⟩ | ⟨-, hr⟩
      · rw [hacc] at hr
        simp at hr
      · rw [hacc] at hr2
        simp at hr2
      · rw [hft] at hr
        simp at hr
  · intro g hg
    simpa using feed_mem_streamTraceFrom sink frames 0 (n + 1) g hg

/-- Witness for C4 on a concrete run: AcceptWaveform raises on frame 0, no
event is emitted for it, and frame 1 is still fed. -/
theorem recognizer_error_skips_frame_and_continues_witness :
    (RunAction.emit 0 ⟨EventKind.partialK, "hel"⟩ ∉
      streamTrace none [sampleErrFrame, samplePartialFrame]) ∧
    RunAction.feed 1 ∈ streamTrace none [sampleErrFrame, samplePartialFrame] :=
  ⟨(recognizer_error_skips_frame_and_continues none
      [sampleErrFrame, samplePartialFrame] 0 sampleErrFrame (by decide)
      (Or.inl (by decide))).1 ⟨EventKind.partialK, "hel"⟩,
   (recognizer_error_skips_frame_and_continues none
      [sampleErrFrame, samplePartialFrame] 0 sampleErrFrame (by decide)
      (Or.inl (by decide))).2 samplePartialFrame (by decide)⟩

/-- The recognizer interaction contains no sink actions. -/
theorem recogActions_filter_nonSink (i : Nat) (r : RecogResponse) :
    (recogActions i r).filter nonSink = recogActions i r := by
  rcases r with ⟨acc, ft, pt⟩
  cases acc with
  | err => simp [recogActions, nonSink]
  | ok b =>
    cases b with
    | false =>
      cases pt with
      | ok t => by_cases hh : pyStrip t = "" <;> simp [recogActions, hh, nonSink]
      | err => simp [recogActions, nonSink]
    | true =>
      cases ft with
      | ok t => by_cases hh : pyStrip t = "" <;> simp [recogActions, hh, nonSink]
      | err => simp [recogActions, nonSink]

/-- Removing the sink actions from a loop iteration with a sink installed
gives exactly the loop iteration without a sink: the sink outcome has no
influence on the rest of the iteration. -/
theorem frameTrace_filter_nonSink (cb : Sink) (i : Nat) (f : FrameInput) :
    (frameTrace (some cb) i f).filter nonSink = frameTrace none i f := by
  unfold frameTrace
  rw [List.filter_append]
  cases hcb : cb f.data <;> simp [hcb, nonSink, recogActions_filter_nonSink]

/-- Removing the sink actions from the streaming loop with a sink installed
gives exactly the streaming loop without a sink. -/
theorem streamTraceFrom_filter_nonSink (cb : Sink) :
    ∀ (fs : List FrameInput) (j : Nat),
      (streamTraceFrom (some cb) j fs).filter nonSink =
        streamTraceFrom none j fs := by
  intro fs
  induction fs with
  | nil => intro j; simp [streamTraceFrom]
  | cons f fs ih =>
    intro j
    simp only [streamTraceFrom]
    rw [List.filter_append, frameTrace_filter_nonSink, ih]

/-- C5: apart from the sink invocations themselves, a run with any sink
callback installed (one that raises on every invocation included) is the
run without a sink: every transcription event is still emitted, the loop
is never aborted by the sink, and the surfaced termination is unchanged,
so no sink exception reaches the caller of run. -/
theorem sink_exceptions_never_abort_or_propagate
    (b : SetupBehavior) (frames : List FrameInput) (ending : StreamEnd)
    (cb : Sink) :
    (runTrace b (some cb) frames ending).filter nonSink =
      runTrace b none frames ending := by
  rcases b with ⟨bp, bm, bo⟩
  cases bp with
  | false => simp [runTrace, nonSink]
  | true =>
    cases bm with
    | false => simp [runTrace, nonSink]
    | true =>
      cases bo with
      | false => simp [runTrace, nonSink]
      | true =>
        simp only [runTrace, streamTrace, Bool.not_true, Bool.false_eq_true,
          if_false]
        rw [List.filter_append, streamTraceFrom_filter_nonSink]
        simp [nonSink]

/-- The sink hook of one loop iteration: the callback is invoked first,
exactly once, before the recognizer is fed the frame, whatever the callback
does on the frame data. -/
theorem frameTrace_sink_head (cb : Sink) (i : Nat) (f : FrameInput) :
    ∃ tail, frameTrace (some cb) i f = RunAction.sinkCall i :: tail ∧
      RunAction.sinkCall i ∉ tail ∧ RunAction.feed i ∈ tail ∧
      ∀ a ∈ tail, frameIdx a = some i := by
  have hns : ∀ (jj : Nat), RunAction.sinkCall jj ∉ recogActions i f.resp := by
    intro jj h
    rcases hr : f.resp with ⟨acc, ft, pt⟩
    rw [hr] at h
    cases acc with
    | err => simp [recogActions] at h
    | ok bb =>
      cases bb with
      | false =>
        cases pt with
        | ok t => by_cases hh : pyStrip t = "" <;> simp [recogActions, hh] at h
        | err => simp [recogActions] at h
      | true =>
        cases ft with
        | ok t => by_cases hh : pyStrip t = "" <;> simp [recogActions, hh] at h
        | err => simp [recogActions] at h
  cases hcb : cb f.data with
  | ok u =>
    refine ⟨recogActions i f.resp, ?_, hns i, feed_mem_recogActions i f.resp,
      recogActions_idx i f.resp⟩
    simp [frameTrace, hcb]
  | err =>
    refine ⟨RunAction.sinkFailed i :: recogActions i f.resp, ?_, ?_, ?_, ?_⟩
    · simp [frameTrace, hcb]
    · intro h
      rcases List.mem_cons.mp h with h | h
      · simp at h
      · exact hns i h
    · exact List.mem_cons_of_mem _ (feed_mem_recogActions i f.resp)
    · intro a ha
      rcases List.mem_cons.mp ha with rfl | ha
      · rfl
      · exact recogActions_idx i f.resp a ha

/-- Splitting the streaming loop at the sink invocation for frame number
j + i: everything before it belongs to earlier frames, everything after it
to that frame or later ones, the recognizer feed of the frame comes after
it, and it occurs nowhere else. -/
theorem streamTraceFrom_sink_split (cb : Sink) :
    ∀ (fs : List FrameInput) (j i : Nat), i < fs.length →
      ∃ pre suf,
        streamTraceFrom (some cb) j fs =
          pre ++ RunAction.sinkCall (j + i) :: suf ∧
        (∀ a ∈ pre, ∃ k, frameIdx a = some k ∧ k < j + i) ∧
        (∀ a ∈ suf, ∃ k, frameIdx a = some k ∧ j + i ≤ k) ∧
        RunAction.feed (j + i) ∈ suf ∧
        RunAction.sinkCall (j + i) ∉ suf := by
  intro fs
  induction fs with
  | nil =>
    intro j i h
    simp at h
  | cons f fs ih =>
    intro j i h
    cases i with
    | zero =>
      obtain ⟨tail, htr, hnot, hfeed, hidx⟩ := frameTrace_sink_head cb j f
      refine ⟨[], tail ++ streamTraceFrom (some cb) (j + 1) fs,
        ?_, by simp, ?_, ?_, ?_⟩
      · simp only [streamTraceFrom, htr, Nat.add_zero, List.nil_append,
          List.cons_append]
      · intro a ha
        rw [List.mem_append] at ha
        rcases ha with ha | ha
        · exact ⟨j, hidx a ha, by omega⟩
        · obtain ⟨k, hk, hle, -⟩ := streamTraceFrom_idx (some cb) fs (j + 1) a ha
          exact ⟨k, hk, by omega⟩
      · rw [Nat.add_zero]
        exact List.mem_append_left _ hfeed
      · rw [Nat.add_zero]
        intro hmem
        rw [List.mem_append] at hmem
        rcases hmem with hmem | hmem
        · exact hnot hmem
        · obtain ⟨k, hk, hle, -⟩ :=
            streamTraceFrom_idx (some cb) fs (j + 1) _ hmem
          simp [frameIdx] at hk
          omega
    | succ i =>
      have h2 : i < fs.length := by
        simp only [List.length_cons] at h
        omega
      obtain ⟨pre, suf, heq, hpre, hsuf, hfeed, hnot⟩ := ih (j + 1) i h2
      have harith : (j + 1) + i = j + (i + 1) := by omega
      rw [harith] at heq hfeed hnot
      refine ⟨frameTrace (some cb) j f ++ pre, suf, ?_, ?_, ?_, hfeed, hnot⟩
      · simp only [streamTraceFrom]
        rw [heq, List.append_assoc]
      · intro a ha
        rw [List.mem_append] at ha
        rcases ha with ha | ha
        · exact ⟨j, frameTrace_idx (some cb) j f a ha, by omega⟩
        · obtain ⟨k, hk, hlt⟩ := hpre a ha
          rw [harith] at hlt
          exact ⟨k, hk, hlt⟩
      · intro a ha
        obtain ⟨k, hk, hle⟩ := hsuf a ha
        rw [harith] at hle
        exact ⟨k, hk, hle⟩

/-- C6: with a sink installed, the sink callback for every captured frame
is invoked exactly once, in frame order (everything before the invocation
belongs to earlier frames, everything after to that frame or later), and
before that same frame is fed to the recognizer. -/
theorem sink_called_in_order_before_feed (cb : Sink) (frames : List FrameInput)
    (i : Nat) (h : i < frames.length) :
    ∃ pre suf,
      streamTrace (some cb) frames = pre ++ RunAction.sinkCall i :: suf ∧
      (∀ a ∈ pre, ∃ k, frameIdx a = some k ∧ k < i) ∧
      (∀ a ∈ suf, ∃ k, frameIdx a = some k ∧ i ≤ k) ∧
      RunAction.feed i ∈ suf ∧
      RunAction.sinkCall i ∉ suf := by
  have hs := streamTraceFrom_sink_split cb frames 0 i h
  simpa using hs

/-- Witness for C6 on a concrete run with an always-raising sink and one
frame. -/
theorem sink_called_in_order_before_feed_witness :
    ∃ pre suf,
      streamTrace (some raisingSink) [sampleFinalFrame] =
        pre ++ RunAction.sinkCall 0 :: suf ∧
      (∀ a ∈ pre, ∃ k, frameIdx a = some k ∧ k < 0) ∧
      (∀ a ∈ suf, ∃ k, frameIdx a = some k ∧ 0 ≤ k) ∧
      RunAction.feed 0 ∈ suf ∧
      RunAction.sinkCall 0 ∉ suf :=
  sink_called_in_order_before_feed raisingSink [sampleFinalFrame] 0 (by decide)

/-- C7: cleanup raises no error and nulls both audio handles from any
session state (so also after a failed load_model or setup_audio_stream left
a partial initialization), and a repeated call finds nothing to release: it
changes nothing, performs no release step and raises no error, whatever the
underlying calls would do. -/
theorem cleanup_idempotent_no_error (f g : CleanupFailures)
    (s : TranscriberState) :
    (cleanup f s).2.2 = none ∧
    (cleanup f s).1.stream = none ∧ (cleanup f s).1.p = none ∧
    cleanup g (cleanup f s).1 = ((cleanup f s).1, [], none) := by
  rcases s with ⟨m, r, st, p⟩
  cases st <;> cases p <;> simp [cleanup]

/-- Counterexample to C8 as stated: on a fully initialized session, cleanup
does not release the recognizer or the model; both fields keep their
handles. -/
theorem cleanup_releases_recognizer_counterexample :
    ¬ ((cleanup noFail fullState).1.recognizer = none ∧
       (cleanup noFail fullState).1.model = none) := by
  decide

/-- C8 amended: cleanup releases only the audio resources, in order: the
stream is stopped, then closed, then the audio system is terminated; the
recognizer and model fields are left untouched. -/
theorem cleanup_releases_only_audio_in_order (f : CleanupFailures)
    (s : TranscriberState) (hs : s.stream = some ()) (hp : s.p = some ()) :
    (cleanup f s).2.1 =
      [ReleaseStep.stopStream (!f.stopFails),
        ReleaseStep.closeStream (!f.closeFails),
        ReleaseStep.terminateAudio (!f.terminateFails)] ∧
    (cleanup f s).1.stream = none ∧ (cleanup f s).1.p = none ∧
    (cleanup f s).1.recognizer = s.recognizer ∧
    (cleanup f s).1.model = s.model := by
  rcases s with ⟨m, r, st, p⟩
  simp only at hs hp
  subst hs
  subst hp
  simp [cleanup]

/-- Witness for the amended C8 on the fully initialized session with
successful release calls. -/
theorem cleanup_releases_only_audio_in_order_witness :
    (cleanup noFail fullState).2.1 =
      [ReleaseStep.stopStream true, ReleaseStep.closeStream true,
        ReleaseStep.terminateAudio true] ∧
    (cleanup noFail fullState).1.stream = none ∧
    (cleanup noFail fullState).1.p = none ∧
    (cleanup noFail fullState).1.recognizer = fullState.recognizer ∧
    (cleanup noFail fullState).1.model = fullState.model :=
  cleanup_releases_only_audio_in_order noFail fullState rfl rfl

/-- Counterexample to C9 as stated: invoking setup_audio_stream on a fresh
session whose model was never loaded raises nothing and opens both audio
resources, rather than failing with a state error and leaving no resources
open. -/
theorem openAudio_before_load_counterexample :
    initState.model = none ∧
    ¬ ((setup_audio_stream true initState).2 ≠ none ∧
       (setup_audio_stream true initState).1.stream = none ∧
       (setup_audio_stream true initState).1.p = none) := by
  decide

/-- C9 amended: setup_audio_stream performs no state-order check: invoked
before load_model (device opening successfully) it raises no error and
opens the stream and the audio system while the model stays absent; the
order check lives in start_recognition, which raises RuntimeError when the
model is not loaded and creates no recognizer. -/
theorem openAudio_before_load_succeeds_and_opens :
    (setup_audio_stream true initState).2 = none ∧
    (setup_audio_stream true initState).1.stream = some () ∧
    (setup_audio_stream true initState).1.p = some () ∧
    (setup_audio_stream true initState).1.model = none ∧
    (start_recognition (setup_audio_stream true initState).1).2 =
      some PyError.notInitialized ∧
    (start_recognition (setup_audio_stream true initState).1).1.recognizer =
      none := by
  decide

/-- C10: cleanup returns normally from every session state and every
behaviour of the underlying release calls (each being individually guarded
by its own try/except pass), and it nulls the stream and audio-system
fields. -/
theorem cleanup_never_raises (f : CleanupFailures) (s : TranscriberState) :
    (cleanup f s).2.2 = none ∧
    (cleanup f s).1.stream = none ∧ (cleanup f s).1.p = none := by
  rcases s with ⟨m, r, st, p⟩
  cases st <;> cases p <;> simp [cleanup]
